import Mathlib

/-!
Verification development for the realtylink scraper (src/main.py).

The Python program is shallowly embedded: each extraction helper of the
source becomes a Lean function over a `Doc` value that records, field by
field, the results of the BeautifulSoup queries the source performs
(tag present or not, raw tag text, script-tag strings, the label/value
characteristic list).  Python exceptions are modelled with `Except`,
Python `int` with `Int`, and the two regular expressions of the source
are implemented directly as character-list scanners with the exact
backtracking behaviour of the patterns involved.  The traversal loop of
`parse_announcements` is embedded as a fuel-indexed step function over an
abstract fetch environment, recording every fetch in an event trace.
-/

namespace Scraper

/-- Union of the Python values that `extract_value_by_title` can produce
besides `None`: an `int` or a `str`. -/
inductive IntOrStr where
  | int (n : Int)
  | str (s : String)
  deriving Repr, DecidableEq

/-- Python exceptions that the field extractor can raise and that are not
caught anywhere in the program (`requests` errors are modelled separately). -/
inductive PyErr where
  | typeError
  | jsonDecodeError
  | keyError
  deriving Repr, DecidableEq

/-- ASCII whitespace as recognised by Python `str.strip()`. -/
def isPySpace (c : Char) : Bool :=
  c = ' ' || c = '\t' || c = '\n' || c = '\r' || c = '\x0b' || c = '\x0c'

/-- Strip leading and trailing Python whitespace from a character list. -/
def stripChars (l : List Char) : List Char :=
  ((l.dropWhile isPySpace).reverse.dropWhile isPySpace).reverse

/-- Python `str.strip()`. -/
def pyStrip (s : String) : String := ⟨stripChars s.data⟩

/-- Value of a list of decimal digit characters. -/
def digitsToNat (l : List Char) : Nat :=
  l.foldl (fun a c => a * 10 + (c.toNat - 48)) 0

/-- Python `int(s)` on an optionally signed decimal string; `none` models the
`ValueError` raised on any other input. -/
def pyInt (s : String) : Option Int :=
  match stripChars s.data with
  | '-' :: ds => if !ds.isEmpty && ds.all Char.isDigit then some (-(digitsToNat ds : Int)) else none
  | '+' :: ds => if !ds.isEmpty && ds.all Char.isDigit then some ((digitsToNat ds : Int)) else none
  | ds => if !ds.isEmpty && ds.all Char.isDigit then some ((digitsToNat ds : Int)) else none

/-- Python `str.split(",")`. -/
def splitComma : List Char → List (List Char)
  | [] => [[]]
  | c :: rest =>
    if c = ',' then [] :: splitComma rest
    else
      match splitComma rest with
      | s :: ss => (c :: s) :: ss
      | [] => [[c]]

/-- Embedding of `parse_region` (src/main.py lines 74-79): when the address is
truthy, split on commas; with at least two parts, join the last two stripped
parts with a comma and a space; in every other case return the empty string. -/
def parse_region (full_address : Option String) : String :=
  match full_address with
  | none => ""
  | some s =>
    if s = "" then ""
    else
      let parts := splitComma s.data
      if h : 2 ≤ parts.length then
        ⟨stripChars (parts.get ⟨parts.length - 2, by omega⟩) ++
          ',' :: ' ' :: stripChars (parts.get ⟨parts.length - 1, by omega⟩)⟩
      else ""

/-- Embedding of `get_text_or_default` (lines 101-102): stripped tag text, or
the default `None` when the tag is absent.  The source is only ever called
with the default value `None`. -/
def get_text_or_default (tag : Option String) : Option String :=
  match tag with
  | some t => some (pyStrip t)
  | none => none

/-- First maximal run of decimal digits in a character list, as used by
`re.findall` with pattern backslash-d-plus. -/
def firstDigitRun : List Char → Option (List Char)
  | [] => none
  | c :: rest =>
    if c.isDigit then some (c :: rest.takeWhile Char.isDigit)
    else firstDigitRun rest

/-- Embedding of `extract_number_from_tag` (lines 92-98): first digit run of
the stripped tag text coerced to an integer, `none` when the tag is absent or
its text has no digit. -/
def extract_number_from_tag (tag : Option String) : Option Int :=
  match tag with
  | none => none
  | some t =>
    match firstDigitRun (stripChars t.data) with
    | some ds => some ((digitsToNat ds : Int))
    | none => none

/-- Word character for the purposes of a regex word boundary, restricted to
ASCII (the inputs in scope are ASCII). -/
def isWordChar (c : Char) : Bool := c.isAlphanum || c = '_'

mutual
/-- Body of the floor-area pattern while consuming the digits of the current
run.  `acc` is the committed match without the current run (`[]` for the
initial run) and `cur` holds the current run reversed, including its leading
comma for a later group.  When a word character directly follows the digits
the trailing word boundary fails there and also after every shorter digit
run, so the current run is dropped: the initial run has no fallback and the
whole attempt fails, a later group falls back to the committed match, whose
trailing boundary at the comma always holds. -/
def normDigits (acc cur : List Char) : List Char → Option (List Char)
  | [] => some (acc ++ cur.reverse)
  | c :: rest =>
    if c.isDigit then normDigits acc (c :: cur) rest
    else if c = ',' then normComma (acc ++ cur.reverse) rest
    else if isWordChar c then
      if acc.isEmpty then none else some acc
    else some (acc ++ cur.reverse)

/-- Body of the floor-area pattern directly after a comma that follows the
committed match `acc`: a digit starts the next group, anything else leaves
the comma outside the match, whose boundary then holds at the comma. -/
def normComma (acc : List Char) : List Char → Option (List Char)
  | [] => some acc
  | c :: rest =>
    if c.isDigit then normDigits acc [c, ','] rest
    else some acc
end

/-- Attempt of the floor-area pattern at one position (the boundary before
the position is checked by the caller): at least one digit, then the
backtracking tail. -/
def normMatchAt : List Char → Option (List Char)
  | [] => none
  | c :: rest => if c.isDigit then normDigits [] [c] rest else none

/-- Leftmost search for the floor-area pattern, tracking whether the previous
character was a word character so that the leading word boundary can be
checked. -/
def normScan : Bool → List Char → Option (List Char)
  | _, [] => none
  | prevWord, c :: rest =>
    if !prevWord && c.isDigit then
      match normMatchAt (c :: rest) with
      | some r => some r
      | none => normScan (isWordChar c) rest
    else normScan (isWordChar c) rest

/-- The `re.search` of `normalize_floor_area` followed by removing the commas
of the match and coercing to an integer: first match of a digit run with
optional comma groups, delimited by word boundaries. -/
def normSearch (s : String) : Option Int :=
  (normScan false s.data).map (fun m => ((digitsToNat (m.filter (fun c => c ≠ ','))) : Int))

/-- Embedding of `normalize_floor_area` (lines 118-124).  The source passes
the raw result of `extract_value_by_title` here, so the argument can be an
integer; a truthy integer reaches `re.search` which raises `TypeError` on a
non-string argument.  A falsy argument (`None`, `0`, the empty string) skips
the search and the result stays `None`. -/
def normalize_floor_area (floor_area : Option IntOrStr) : Except PyErr (Option Int) :=
  match floor_area with
  | none => .ok none
  | some (.int n) => if n = 0 then .ok none else .error .typeError
  | some (.str s) => if s = "" then .ok none else .ok (normSearch s)

/-- Abstraction of one parsed listing document: the result of every
BeautifulSoup query that the field extractor performs.  Each `Option String`
field is the raw text of the queried tag when it is present.  `priceMeta` is
the price meta tag together with its optional `content` attribute, `scripts`
lists the string of every script tag in document order, and `carac` lists
every `carac-title` string together with the raw text of its following
`carac-value` sibling when that sibling exists. -/
structure Doc where
  listingDisplayId : Option String := none
  pageTitle : Option String := none
  addressH2 : Option String := none
  descriptionDiv : Option String := none
  scripts : List String := []
  priceMeta : Option (Option String) := none
  cacDiv : Option String := none
  sdbDiv : Option String := none
  carac : List (String × Option String) := []
  brokerTitle : Option String := none
  phoneA : Option String := none
  latSpan : Option String := none
  lngSpan : Option String := none
  priceContainer : Option String := none
  deriving Repr, DecidableEq

/-- Embedding of `extract_value_by_title` (lines 105-115): find the first
characteristic whose title string equals `title` exactly; when its value tag
exists, strip the value text and attempt `int` coercion, falling back to the
stripped string; otherwise `None`. -/
def extract_value_by_title (doc : Doc) (title : String) : Option IntOrStr :=
  match doc.carac.find? (fun e => e.1 == title) with
  | some (_, some raw) =>
    let value_text := pyStrip raw
    match pyInt value_text with
    | some n => some (.int n)
    | none => some (.str value_text)
  | some (_, none) => none
  | none => none

/-- Python `str.lower()` restricted to ASCII case mapping. -/
def toLowerStr (s : String) : String := ⟨s.data.map Char.toLower⟩

/-- Check that the first list is an initial segment of the second. -/
def leadsWith : List Char → List Char → Bool
  | [], _ => true
  | _ :: _, [] => false
  | a :: as, b :: bs => a == b && leadsWith as bs

/-- Check that the first list occurs contiguously inside the second. -/
def hasSub (needle : List Char) : List Char → Bool
  | [] => leadsWith needle []
  | b :: bs => leadsWith needle (b :: bs) || hasSub needle bs

/-- Python substring containment `needle in hay`. -/
def strContains (hay needle : String) : Bool := hasSub needle.data hay.data

/-- Embedding of `extract_rent_period_and_type` (lines 127-141): when the
price container is present, test the lowered stripped text for the substring
month and then for week. -/
def extract_rent_period_and_type (doc : Doc) : Option String × Option String :=
  match doc.priceContainer with
  | none => (none, none)
  | some raw =>
    let price_text := pyStrip raw
    if strContains (toLowerStr price_text) "month" then (some "month", some "rent")
    else if strContains (toLowerStr price_text) "week" then (some "week", some "rent")
    else (none, none)

/-- The literal part of the photo-array pattern. -/
def mosaicLit : List Char := "window.MosaicPhotoUrls".data

/-- Drop an expected literal from the front of a list, or fail. -/
def chopLit (needle l : List Char) : Option (List Char) :=
  if leadsWith needle l then some (l.drop needle.length) else none

/-- Check whether a list starts with a semicolon. -/
def startsSemi : List Char → Bool
  | ';' :: _ => true
  | _ => false

/-- Lazy tail of the photo-array pattern after the opening bracket: consume
characters up to and including the first closing bracket that is directly
followed by a semicolon, failing when there is none. -/
def captureArr : List Char → Option (List Char)
  | [] => none
  | c :: rest =>
    if c = ']' && startsSemi rest then some [']']
    else (captureArr rest).map (fun r => c :: r)

/-- Attempt of the photo-array pattern at one position: the literal, optional
whitespace, an equals sign, optional whitespace, then the bracketed group. -/
def matchMosaicAt (l : List Char) : Option (List Char) :=
  match chopLit mosaicLit l with
  | none => none
  | some rest =>
    match rest.dropWhile isPySpace with
    | '=' :: rest2 =>
      match rest2.dropWhile isPySpace with
      | '[' :: rest3 => (captureArr rest3).map (fun r => '[' :: r)
      | _ => none
    | _ => none

/-- Leftmost search for the photo-array pattern, returning the bracketed
array literal of the first successful match. -/
def mosaicScan : List Char → Option (List Char)
  | [] => none
  | c :: rest =>
    match matchMosaicAt (c :: rest) with
    | some r => some r
    | none => mosaicScan rest

/-- JSON whitespace. -/
def isJsonWs (c : Char) : Bool := c = ' ' || c = '\t' || c = '\n' || c = '\r'

/-- Simple JSON string escapes. -/
def jsonEsc (c : Char) : Option Char :=
  if c = '"' then some '"'
  else if c = '\\' then some '\\'
  else if c = '/' then some '/'
  else if c = 'b' then some '\x08'
  else if c = 'f' then some '\x0c'
  else if c = 'n' then some '\n'
  else if c = 'r' then some '\r'
  else if c = 't' then some '\t'
  else none

/-- Value of one hexadecimal digit character. -/
def hexVal (c : Char) : Option Nat :=
  let n := c.toNat
  if 48 ≤ n && n ≤ 57 then some (n - 48)
  else if 97 ≤ n && n ≤ 102 then some (n - 87)
  else if 65 ≤ n && n ≤ 70 then some (n - 55)
  else none

mutual
/-- Parse the body of a JSON string literal after its opening quote,
returning the decoded characters and the rest after the closing quote.
Control characters are rejected, as by the strict default of json.loads. -/
def jsonStrChars : List Char → Option (List Char × List Char)
  | [] => none
  | c :: rest =>
    if c = '"' then some ([], rest)
    else if c = '\\' then jsonStrEsc rest
    else if c.toNat < 32 then none
    else
      match jsonStrChars rest with
      | some (s, r) => some (c :: s, r)
      | none => none

/-- Parse the remainder of a JSON string literal directly after a backslash:
one escape character, or a 4-digit hexadecimal unicode escape. -/
def jsonStrEsc : List Char → Option (List Char × List Char)
  | [] => none
  | e :: rest2 =>
    if e = 'u' then
      match rest2 with
      | h1 :: h2 :: h3 :: h4 :: rest3 =>
        match hexVal h1, hexVal h2, hexVal h3, hexVal h4 with
        | some a, some b, some c2, some d =>
          match jsonStrChars rest3 with
          | some (s, r) => some (Char.ofNat (((a * 16 + b) * 16 + c2) * 16 + d) :: s, r)
          | none => none
        | _, _, _, _ => none
      | _ => none
    else
      match jsonEsc e with
      | some ec =>
        match jsonStrChars rest2 with
        | some (s, r) => some (ec :: s, r)
        | none => none
      | none => none
end

/-- Parse a nonempty comma-separated sequence of JSON string literals up to
and including the closing bracket of the array, with a fuel bound on the
number of elements. -/
def parseElems : Nat → List Char → Option (List String × List Char)
  | 0, _ => none
  | fuel + 1, l =>
    match l with
    | '"' :: rest =>
      match jsonStrChars rest with
      | none => none
      | some (content, rest2) =>
        match rest2.dropWhile isJsonWs with
        | ',' :: rest3 =>
          match parseElems fuel (rest3.dropWhile isJsonWs) with
          | some (es, tail) => some (String.mk content :: es, tail)
          | none => none
        | ']' :: rest3 => some ([String.mk content], rest3)
        | _ => none
    | _ => none

/-- Model of `json.loads` restricted to JSON arrays of string literals, the
only shape the photo-array variable carries; every other document is treated
as a decode error.  The error value models the `json.JSONDecodeError` that
`json.loads` raises on malformed input, which no caller catches. -/
def jsonLoadsStrArr (s : String) : Except PyErr (List String) :=
  match s.data.dropWhile isJsonWs with
  | '[' :: rest =>
    match rest.dropWhile isJsonWs with
    | ']' :: tail =>
      if (tail.dropWhile isJsonWs).isEmpty then .ok [] else .error .jsonDecodeError
    | l =>
      match parseElems (l.length + 1) l with
      | some (es, tail) =>
        if (tail.dropWhile isJsonWs).isEmpty then .ok es else .error .jsonDecodeError
      | none => .error .jsonDecodeError
  | _ => .error .jsonDecodeError

/-- Embedding of `extract_image_urls` (lines 82-89): find the first script
whose string matches the photo-array pattern, re-run the capturing search
on that same string, and decode the captured array literal as JSON.  No
matching script yields the empty list; a captured literal that is not valid
JSON raises. -/
def extract_image_urls (doc : Doc) : Except PyErr (List String) :=
  match doc.scripts.find? (fun s => (mosaicScan s.data).isSome) with
  | some s =>
    match mosaicScan s.data with
    | some lit => jsonLoadsStrArr (String.mk lit)
    | none => .ok []
  | none => .ok []

/-- The Announcement record of src/main.py lines 18-37.  The two fields that
the code can fill with either an integer or a string use `IntOrStr`. -/
structure Announcement where
  link : String
  ref : Option String
  rent_period : Option String
  type : Option String
  title : Option String
  address : Option String
  region : Option String
  description : Option String
  images : List String
  price : Option String
  bedrooms : Option Int
  bathrooms : Option Int
  floor_area : Option Int
  parking_spaces : Option IntOrStr
  additional_features : Option IntOrStr
  realtor : Option String
  phone : Option String
  latitude : Option String
  longitude : Option String
  deriving Repr, DecidableEq

/-- The record-building part of `parse_announcement` (lines 46-71), applied to
an already fetched and parsed document.  The three keyword arguments that can
raise are evaluated in their source order: images, then the price meta
attribute access, then the floor-area normalization; every other field is a
total computation.  A raised error aborts the whole record, since nothing in
the source catches these exceptions. -/
def announcementOfDoc (link : String) (doc : Doc) : Except PyErr Announcement := do
  let images ← extract_image_urls doc
  let price ← match doc.priceMeta with
    | some (some content) => Except.ok (some content)
    | some none => Except.error PyErr.keyError
    | none => Except.ok none
  let floor_area ← normalize_floor_area (extract_value_by_title doc "Floor Area")
  Except.ok {
    link := link
    ref := get_text_or_default doc.listingDisplayId
    rent_period := (extract_rent_period_and_type doc).1
    type := (extract_rent_period_and_type doc).2
    title := get_text_or_default doc.pageTitle
    address := get_text_or_default doc.addressH2
    region := some (parse_region (get_text_or_default doc.addressH2))
    description := get_text_or_default doc.descriptionDiv
    images := images
    price := price
    bedrooms := extract_number_from_tag doc.cacDiv
    bathrooms := extract_number_from_tag doc.sdbDiv
    floor_area := floor_area
    parking_spaces := extract_value_by_title doc "Parking Spaces"
    additional_features := extract_value_by_title doc "Additional Features"
    realtor := get_text_or_default doc.brokerTitle
    phone := get_text_or_default doc.phoneA
    latitude := get_text_or_default doc.latSpan
    longitude := get_text_or_default doc.lngSpan }

/-- Exceptions observable inside the traversal loop: a requests
RequestException (the only class the loop catches) or an uncaught Python
exception escaping the field extractor. -/
inductive Exc where
  | request
  | py (e : PyErr)
  deriving Repr, DecidableEq

/-- Abstract network: fetching and parsing an index page yields the href list
selected by the link collector, fetching and parsing a detail page yields the
parsed document; an error models a RequestException raised by `fetch_page`. -/
structure Env where
  fetchIndex : String → Except Unit (List String)
  fetchDetail : String → Except Unit Doc

/-- Embedding of `parse_announcement` (lines 46-71): fetch the detail page,
then build the record from the parsed document. -/
def parse_announcement (env : Env) (announcement_url : String) : Except Exc Announcement :=
  match env.fetchDetail announcement_url with
  | .error _ => .error .request
  | .ok doc =>
    match announcementOfDoc announcement_url doc with
    | .error e => .error (.py e)
    | .ok a => .ok a

/-- The URL origin prepended to every relative listing link (line 145). -/
def origin : String := "https://realtylink.org"

/-- Index page URL construction of line 154. -/
def mkPageUrl (url : String) (page_count : Nat) : String :=
  url ++ "&page=" ++ toString page_count

/-- Trace event: one fetch issued by the controller. -/
inductive Ev where
  | indexFetch (url : String)
  | detailFetch (url : String)
  deriving Repr, DecidableEq

/-- Outcome of the inner link loop of lines 165-173. -/
inductive LinksOut where
  | ok (anns : List Announcement) (tr : List Ev)
  | reqErr (anns : List Announcement) (tr : List Ev)
  | exc (e : PyErr) (tr : List Ev)
  deriving Repr, DecidableEq

/-- Embedding of the link loop (lines 165-173): for each collected href,
first break once the accumulated count has reached the limit, otherwise fetch
and extract the detail page at the origin-prefixed URL and append the record.
A RequestException ends the loop keeping the records appended so far (it is
caught by the surrounding handler); any other exception propagates. -/
def processLinks (env : Env) (limit : Nat) :
    List String → List Announcement → List Ev → LinksOut
  | [], anns, tr => .ok anns tr
  | href :: rest, anns, tr =>
    if limit ≤ anns.length then .ok anns tr
    else
      let au := origin ++ href
      match parse_announcement env au with
      | .error .request => .reqErr anns (tr ++ [.detailFetch au])
      | .error (.py e) => .exc e (tr ++ [.detailFetch au])
      | .ok a => processLinks env limit rest (anns ++ [a]) (tr ++ [.detailFetch au])

/-- Result of a bounded run of the traversal loop: the loop returned, an
uncaught exception escaped it, or the fuel bound was reached with the loop
still running. -/
inductive RunResult where
  | done (anns : List Announcement) (tr : List Ev)
  | raised (e : PyErr) (tr : List Ev)
  | outOfFuel (anns : List Announcement) (tr : List Ev)
  deriving Repr, DecidableEq

/-- Embedding of the while loop of lines 152-180, indexed by fuel counting
loop iterations.  Each iteration re-checks the count, increments the page
counter, fetches the index page, and runs the link loop; a RequestException
anywhere inside the try block breaks out of the while loop, after which the
accumulated records are returned. -/
def loopPages (env : Env) (url : String) (limit : Nat) :
    Nat → Nat → List Announcement → List Ev → RunResult
  | 0, _, anns, tr => .outOfFuel anns tr
  | fuel + 1, page_count, anns, tr =>
    if anns.length < limit then
      let pc := page_count + 1
      let page_url := mkPageUrl url pc
      match env.fetchIndex page_url with
      | .error _ => .done anns (tr ++ [.indexFetch page_url])
      | .ok links =>
        match processLinks env limit links anns (tr ++ [.indexFetch page_url]) with
        | .ok anns2 tr2 => loopPages env url limit fuel pc anns2 tr2
        | .reqErr anns2 tr2 => .done anns2 tr2
        | .exc e tr2 => .raised e tr2
    else .done anns tr

/-- Embedding of `parse_announcements` (lines 144-182): run the traversal
loop from page counter zero with no records accumulated. -/
def parse_announcements (env : Env) (url : String) (limit fuel : Nat) : RunResult :=
  loopPages env url limit fuel 0 [] []

/-! Spec-side constructions for the well-formed photo-array assignment of
claim C7: a JSON array literal of URL strings assigned to the known variable.
The URL strings are restricted to characters that need no JSON escaping and
cannot end the lazy capture early. -/

/-- Character allowed in a URL of the well-formed photo array: printable,
not a quote, not a backslash, not a closing bracket. -/
def goodUrlChar (c : Char) : Bool :=
  32 ≤ c.toNat && !(c == '"') && !(c == '\\') && !(c == ']')

/-- URL string of the well-formed photo array. -/
def goodUrl (s : String) : Bool := s.data.all goodUrlChar

/-- Characters of the comma-separated quoted URL list inside the array
literal. -/
def arrLitChars : List String → List Char
  | [] => []
  | [u] => '"' :: (u.data ++ ['"'])
  | u :: v :: us => '"' :: (u.data ++ '"' :: ',' :: arrLitChars (v :: us))

/-- The script text assigning the JSON array of the given URLs to the known
variable. -/
def mosaicAssign (urls : List String) : String :=
  String.mk (mosaicLit ++ (' ' :: '=' :: ' ' :: '[' :: (arrLitChars urls ++ [']', ';'])))

/-! Concrete fixture documents used by counterexamples and witnesses. -/

/-- Listing document whose Floor Area characteristic value coerces to an
integer. -/
def docFA850 : Doc := { carac := [("Floor Area", some "850")] }

/-- Listing document with the Floor Area characteristic value of the spec
example. -/
def docFA1234 : Doc := { carac := [("Floor Area", some "1,234 sq ft")] }

/-- Listing document whose photo-array script holds an array literal that is
not valid JSON. -/
def docBadJson : Doc := { scripts := ["window.MosaicPhotoUrls = [broken];"] }

/-- Listing document with the price text of the spec example. -/
def docMonth : Doc := { priceContainer := some "2,000$/month" }

/-- Listing document whose price text has neither month nor week. -/
def docPlain : Doc := { priceContainer := some "500$" }

/-- The record extracted from a document where every query comes back empty. -/
def blankAnn (link : String) : Announcement :=
  ⟨link, none, none, none, none, none, some "", none, [], none,
   none, none, none, none, none, none, none, none, none⟩

/-- Listing document carrying a well-formed photo array of three URLs. -/
def doc3 : Doc :=
  { scripts := [mosaicAssign ["https://img/1.jpg", "https://img/2.jpg", "https://img/3.jpg"]] }

/-- Listing document whose only script does not match the photo-array
pattern. -/
def docNoScript : Doc := { scripts := ["var x = 1;"] }

/-- Trace of the index fetches issued by `fuel` iterations of the loop
starting at a given page counter. -/
def indexTrace (url : String) : Nat → Nat → List Ev
  | 0, _ => []
  | fuel + 1, pc => .indexFetch (mkPageUrl url (pc + 1)) :: indexTrace url fuel (pc + 1)

/-- Fetch environment where every index page yields zero links. -/
def envZ : Env :=
  { fetchIndex := fun _ => .ok [], fetchDetail := fun _ => .ok {} }

/-- The five listing links of the C4 witness scenario. -/
def hrefs5 : List String := ["/a1", "/a2", "/a3", "/a4", "/a5"]

/-- Fetch environment of the C4 witness: the first index page yields five
links, every further index fetch raises, every detail page is blank. -/
def env5 : Env :=
  { fetchIndex := fun u => if u = mkPageUrl "U" 1 then .ok hrefs5 else .error (),
    fetchDetail := fun _ => .ok {} }

/-- The five records collected from the first index page of `env5`. -/
def anns5 : List Announcement :=
  [blankAnn (origin ++ "/a1"), blankAnn (origin ++ "/a2"), blankAnn (origin ++ "/a3"),
   blankAnn (origin ++ "/a4"), blankAnn (origin ++ "/a5")]

/-- The fetch trace of the first page of the C4 witness scenario. -/
def tr5 : List Ev :=
  [.indexFetch (mkPageUrl "U" 1), .detailFetch (origin ++ "/a1"),
   .detailFetch (origin ++ "/a2"), .detailFetch (origin ++ "/a3"),
   .detailFetch (origin ++ "/a4"), .detailFetch (origin ++ "/a5")]

/-- Fetch environment whose detail fetches all raise: the first index page
yields one link, whose detail fetch then fails. -/
def envD : Env :=
  { fetchIndex := fun u => if u = mkPageUrl "U" 1 then .ok ["/a"] else .error (),
    fetchDetail := fun _ => .error () }

/-- Fetch environment of the C5 witness: one index page with three links. -/
def env3 : Env :=
  { fetchIndex := fun u => if u = mkPageUrl "U" 1 then .ok ["/a", "/b", "/c"] else .error (),
    fetchDetail := fun _ => .ok {} }

/-! Claim theorems. -/

/-- C1 (code bug exhibited): the spec says extraction of every field never
raises, but the code does.  When the Floor Area characteristic value coerces
to an integer, `normalize_floor_area` passes that integer to `re.search`,
which raises TypeError; when the embedded photo-array literal is not valid
JSON, `json.loads` raises a decode error.  Neither exception is caught, so no
record is produced for the listing. -/
theorem c1_extraction_raises :
    extract_value_by_title docFA850 "Floor Area" = some (.int 850) ∧
    normalize_floor_area (some (.int 850)) = .error .typeError ∧
    announcementOfDoc "u" docFA850 = .error .typeError ∧
    extract_image_urls docBadJson = .error .jsonDecodeError ∧
    announcementOfDoc "u" docBadJson = .error .jsonDecodeError := by
  refine ⟨rfl, rfl, rfl, rfl, rfl⟩

/-- C3 counterexample: on an absent address the claim expects a null/absent
region, but `parse_region` returns the empty string, and the produced record
carries that empty string as a present value. -/
theorem c3_region_absent_counterexample :
    parse_region none = "" ∧
    announcementOfDoc "u" ({} : Doc) = Except.ok (blankAnn "u") ∧
    (blankAnn "u").region = some "" ∧ ¬(blankAnn "u").region = none := by
  refine ⟨rfl, rfl, rfl, by simp [blankAnn]⟩

/-- C3 as amended: region derivation returns the last two trimmed
comma-separated parts joined with a comma and a space when at least two parts
exist, the empty string on a present address without a comma, and also the
empty string (not null) on an absent address. -/
theorem c3_region_derivation :
    parse_region (some "123 Main St, Springfield, IL") = "Springfield, IL" ∧
    parse_region (some "123 Main St") = "" ∧
    parse_region none = "" := by
  refine ⟨rfl, rfl, rfl⟩

/-- Characters of a stripped list are characters of the original list. -/
theorem mem_of_mem_stripChars {c : Char} {l : List Char}
    (h : c ∈ stripChars l) : c ∈ l := by
  unfold stripChars at h
  rw [List.mem_reverse] at h
  have h2 := (List.dropWhile_sublist (l := (l.dropWhile isPySpace).reverse)
    (p := isPySpace)).subset h
  rw [List.mem_reverse] at h2
  exact (List.dropWhile_sublist (l := l) (p := isPySpace)).subset h2

/-- A character list without digits has no first digit run. -/
theorem firstDigitRun_eq_none {l : List Char}
    (h : ∀ c ∈ l, c.isDigit = false) : firstDigitRun l = none := by
  induction l with
  | nil => rfl
  | cons c rest ih =>
    have hc : c.isDigit = false := h c (List.mem_cons_self c rest)
    simp only [firstDigitRun, hc, Bool.false_eq_true, if_false]
    exact ih fun d hd => h d (List.mem_cons_of_mem c hd)

/-- C9: numeric extraction returns the first run of digits coerced to an
integer, and null when the element is absent or its text has no digit. -/
theorem c9_extract_number (t : String)
    (h : ∀ c ∈ t.data, c.isDigit = false) :
    extract_number_from_tag none = none ∧
    extract_number_from_tag (some t) = none ∧
    extract_number_from_tag (some "3 chambres") = some 3 := by
  refine ⟨rfl, ?_, rfl⟩
  have : firstDigitRun (stripChars t.data) = none :=
    firstDigitRun_eq_none fun c hc => h c (mem_of_mem_stripChars hc)
  simp [extract_number_from_tag, this]

/-- C9 witness at concrete inputs. -/
theorem c9_extract_number_witness :
    extract_number_from_tag (some "no digits") = none ∧
    extract_number_from_tag (some "3 chambres") = some 3 :=
  ⟨(c9_extract_number "no digits" (by decide)).2.1,
   (c9_extract_number "no digits" (by decide)).2.2⟩

/-- C8: the floor-area pipeline applies the labelled characteristic lookup
and then the normalized numeric extraction; an absent label gives null, the
value of the spec example fails integer coercion, falls back to the trimmed
string and normalizes to 1234, and a plain numeric value is coerced to an
integer by the lookup itself. -/
theorem c8_floor_area_pipeline (doc : Doc)
    (h : ∀ e ∈ doc.carac, ¬e.1 = "Floor Area") :
    (extract_value_by_title doc "Floor Area" = none ∧
     normalize_floor_area (extract_value_by_title doc "Floor Area") = .ok none) ∧
    extract_value_by_title docFA1234 "Floor Area" = some (.str "1,234 sq ft") ∧
    normalize_floor_area (extract_value_by_title docFA1234 "Floor Area") = .ok (some 1234) ∧
    extract_value_by_title docFA850 "Floor Area" = some (.int 850) ∧
    normSearch "1,234 sq ft" = some 1234 := by
  have hfind : doc.carac.find? (fun e => e.1 == "Floor Area") = none := by
    rw [List.find?_eq_none]
    intro e he
    simpa using h e he
  have hnone : extract_value_by_title doc "Floor Area" = none := by
    simp [extract_value_by_title, hfind]
  exact ⟨⟨hnone, by rw [hnone]; rfl⟩, rfl, rfl, rfl, rfl⟩

/-- C8 witness at a concrete document without the Floor Area label. -/
theorem c8_floor_area_pipeline_witness :
    normalize_floor_area
      (extract_value_by_title ({ carac := [("Other", some "5")] } : Doc) "Floor Area") =
      .ok none ∧
    normalize_floor_area (extract_value_by_title docFA1234 "Floor Area") = .ok (some 1234) :=
  ⟨(c8_floor_area_pipeline { carac := [("Other", some "5")] } (by decide)).1.2,
   (c8_floor_area_pipeline { carac := [("Other", some "5")] } (by decide)).2.2.1⟩

/-- C6: rent classification looks at the price-display region text; the month
substring (checked on the lowered text) wins over the week substring, week
alone gives a weekly rent, otherwise both fields are null, and an absent
price region also gives null. -/
theorem c6_rent_classification (doc : Doc) :
    (doc.priceContainer = none → extract_rent_period_and_type doc = (none, none)) ∧
    ∀ t, doc.priceContainer = some t →
      (strContains (toLowerStr (pyStrip t)) "month" = true →
        extract_rent_period_and_type doc = (some "month", some "rent")) ∧
      (strContains (toLowerStr (pyStrip t)) "month" = false →
        strContains (toLowerStr (pyStrip t)) "week" = true →
        extract_rent_period_and_type doc = (some "week", some "rent")) ∧
      (strContains (toLowerStr (pyStrip t)) "month" = false →
        strContains (toLowerStr (pyStrip t)) "week" = false →
        extract_rent_period_and_type doc = (none, none)) := by
  constructor
  · intro hp
    simp [extract_rent_period_and_type, hp]
  · intro t hp
    refine ⟨fun hm => ?_, fun hm hw => ?_, fun hm hw => ?_⟩ <;>
      simp [extract_rent_period_and_type, hp, hm] <;> simp [hw]

/-- C6 witness at the concrete price texts of the spec examples. -/
theorem c6_rent_classification_witness :
    extract_rent_period_and_type docMonth = (some "month", some "rent") ∧
    extract_rent_period_and_type docPlain = (none, none) :=
  ⟨((c6_rent_classification docMonth).2 "2,000$/month" rfl).1 (by decide),
   ((c6_rent_classification docPlain).2 "500$" rfl).2.2 (by decide) (by decide)⟩

/-- When every index page yields zero links, one loop iteration only appends
one index fetch to the trace and changes nothing else, for any amount of
fuel. -/
theorem loopPages_zero_links (env : Env) (url : String) (limit : Nat)
    (hz : ∀ n, env.fetchIndex (mkPageUrl url n) = .ok [])
    (hl : 0 < limit) :
    ∀ fuel pc tr, loopPages env url limit fuel pc [] tr
      = .outOfFuel [] (tr ++ indexTrace url fuel pc) := by
  intro fuel
  induction fuel with
  | zero =>
    intro pc tr
    simp [loopPages, indexTrace]
  | succ f ih =>
    intro pc tr
    simp only [loopPages, List.length_nil, hl, if_true, hz, processLinks]
    rw [ih]
    simp [indexTrace]

/-- C2: with a target above zero, every index page yielding zero links and no
fetch raising, the loop never reaches a terminal state no matter how much
fuel it is given: the collection stays empty, below the target, and each
iteration fetches the next index page again. -/
theorem c2_zero_links_no_termination (env : Env) (url : String) (limit : Nat)
    (hz : ∀ n, env.fetchIndex (mkPageUrl url n) = .ok [])
    (hl : 0 < limit) :
    ∀ fuel, parse_announcements env url limit fuel
      = .outOfFuel [] (indexTrace url fuel 0) := by
  intro fuel
  unfold parse_announcements
  rw [loopPages_zero_links env url limit hz hl fuel 0 []]
  simp

/-- C2 witness at a concrete environment, target and fuel. -/
theorem c2_zero_links_no_termination_witness :
    parse_announcements envZ "U" 1 3 = .outOfFuel [] (indexTrace "U" 3 0) :=
  c2_zero_links_no_termination envZ "U" 1 (fun _ => rfl) (by decide) 3

/-- C4: a transport error during fetching ends the run with exactly the
records accumulated so far returned; the error does not cross the controller
boundary and the collection is not discarded.  First part: whatever records
the first index page produced, an error on the second index-page fetch
returns exactly those records.  Second part: an error while fetching the
first detail page of an index page likewise returns the records accumulated
so far. -/
theorem c4_transport_error_preserves_records (env : Env) (url : String) (limit : Nat) :
    (∀ fuel links anns1 tr1,
      env.fetchIndex (mkPageUrl url 1) = .ok links →
      processLinks env limit links [] [Ev.indexFetch (mkPageUrl url 1)] = .ok anns1 tr1 →
      anns1.length < limit →
      env.fetchIndex (mkPageUrl url 2) = .error () →
      parse_announcements env url limit (fuel + 2)
        = .done anns1 (tr1 ++ [Ev.indexFetch (mkPageUrl url 2)])) ∧
    (∀ fuel pc anns tr href rest,
      env.fetchIndex (mkPageUrl url (pc + 1)) = .ok (href :: rest) →
      env.fetchDetail (origin ++ href) = .error () →
      anns.length < limit →
      loopPages env url limit (fuel + 1) pc anns tr
        = .done anns (tr ++ [Ev.indexFetch (mkPageUrl url (pc + 1)),
            Ev.detailFetch (origin ++ href)])) := by
  constructor
  · intro fuel links anns1 tr1 hi1 hp hlt hi2
    have h0 : (0 : Nat) < limit := lt_of_le_of_lt (Nat.zero_le _) hlt
    unfold parse_announcements
    rw [show fuel + 2 = fuel + 1 + 1 from rfl]
    simp [loopPages, h0, hi1, hp, hlt, hi2]
  · intro fuel pc anns tr href rest hidx hdet hlt
    simp [loopPages, hlt, hidx, processLinks, Nat.not_le.mpr hlt,
      parse_announcement, hdet]

/-- C4 witness: after five records, the failing second index fetch returns
exactly those five records; and in `envD`, where the first detail fetch
fails, the records accumulated before the failing page are returned. -/
theorem c4_transport_error_preserves_records_witness :
    parse_announcements env5 "U" 60 2
      = .done anns5 (tr5 ++ [Ev.indexFetch (mkPageUrl "U" 2)]) ∧
    loopPages envD "U" 60 1 0 anns5 []
      = .done anns5 [Ev.indexFetch (mkPageUrl "U" 1), Ev.detailFetch (origin ++ "/a")] :=
  ⟨(c4_transport_error_preserves_records env5 "U" 60).1 0 hrefs5 anns5 tr5
      rfl rfl (by decide) rfl,
   by
     have h := (c4_transport_error_preserves_records envD "U" 60).2 0 0 anns5 [] "/a" []
       rfl rfl (by decide)
     simpa using h⟩

/-- C5: with a target of two and a first index page of three links, the run
fetches the first two detail pages, never fetches the third link or a second
index page, and finishes with the two records. -/
theorem c5_stops_at_target (env : Env) (url : String) (fuel : Nat)
    (h1 h2 h3 : String) (d1 d2 : Doc) (a1 a2 : Announcement)
    (hi : env.fetchIndex (mkPageUrl url 1) = .ok [h1, h2, h3])
    (hd1 : env.fetchDetail (origin ++ h1) = .ok d1)
    (he1 : announcementOfDoc (origin ++ h1) d1 = .ok a1)
    (hd2 : env.fetchDetail (origin ++ h2) = .ok d2)
    (he2 : announcementOfDoc (origin ++ h2) d2 = .ok a2) :
    parse_announcements env url 2 (fuel + 2)
      = .done [a1, a2]
          [Ev.indexFetch (mkPageUrl url 1), Ev.detailFetch (origin ++ h1),
           Ev.detailFetch (origin ++ h2)] := by
  unfold parse_announcements
  rw [show fuel + 2 = fuel + 1 + 1 from rfl]
  simp [loopPages, processLinks, parse_announcement, hi, hd1, he1, hd2, he2]

/-- C5 witness at the concrete three-link environment with target two. -/
theorem c5_stops_at_target_witness :
    parse_announcements env3 "U" 2 2
      = .done [blankAnn (origin ++ "/a"), blankAnn (origin ++ "/b")]
          [Ev.indexFetch (mkPageUrl "U" 1), Ev.detailFetch (origin ++ "/a"),
           Ev.detailFetch (origin ++ "/b")] :=
  c5_stops_at_target env3 "U" 0 "/a" "/b" "/c" {} {} (blankAnn (origin ++ "/a"))
    (blankAnn (origin ++ "/b")) rfl rfl rfl rfl rfl

/-- C10: in every record the extractor produces, the region field holds the
string computed by `parse_region`, hence is never null; it is the empty
string when the address is absent, and `parse_region` is the empty string
whenever the address splits into fewer than two comma-separated parts. -/
theorem c10_region_always_string (url : String) (doc : Doc) (a : Announcement)
    (he : announcementOfDoc url doc = .ok a) :
    a.region = some (parse_region (get_text_or_default doc.addressH2)) ∧
    ¬a.region = none ∧
    (doc.addressH2 = none → a.region = some "") ∧
    ∀ s : String, (splitComma s.data).length < 2 → parse_region (some s) = "" := by
  have hsplit : ∀ s : String, (splitComma s.data).length < 2 → parse_region (some s) = "" := by
    intro s hs
    by_cases h0 : s = ""
    · simp [parse_region, h0]
    · simp only [parse_region]
      rw [if_neg h0, dif_neg (by omega)]
  have hr : a.region = some (parse_region (get_text_or_default doc.addressH2)) := by
    unfold announcementOfDoc at he
    simp only [bind, Except.bind] at he
    split at he
    · exact absurd he (by simp)
    · split at he
      · split at he
        · exact absurd he (by simp)
        · cases he
          rfl
      · exact absurd he (by simp)
      · split at he
        · exact absurd he (by simp)
        · cases he
          rfl
  refine ⟨hr, by simp [hr], fun hn => ?_, hsplit⟩
  rw [hr, hn]
  rfl

/-- C10 witness: the blank record has a present, empty region. -/
theorem c10_region_always_string_witness :
    ¬(blankAnn "u").region = none ∧ (blankAnn "u").region = some "" ∧
    parse_region (some "123 Main St") = "" := by
  obtain ⟨h1, h2, h3, h4⟩ := c10_region_always_string "u" {} (blankAnn "u") rfl
  exact ⟨h2, h3 rfl, h4 "123 Main St" (by decide)⟩

/-- Rebuilding a string from its characters gives the string back. -/
theorem string_mk_data (s : String) : String.mk s.data = s := by
  cases s
  rfl

/-- A list is an initial segment of itself followed by anything. -/
theorem leadsWith_append_self (p l : List Char) : leadsWith p (p ++ l) = true := by
  induction p with
  | nil => rfl
  | cons c cs ih => simp [leadsWith, ih]

/-- Chopping a literal off a list that starts with it leaves the rest. -/
theorem chopLit_append (p l : List Char) : chopLit p (p ++ l) = some l := by
  unfold chopLit
  rw [if_pos (leadsWith_append_self p l), List.drop_left]

/-- The lazy capture stops at the first closing bracket followed by a
semicolon, collecting everything before it. -/
theorem captureArr_append (l r : List Char) (h : ']' ∉ l) :
    captureArr (l ++ ']' :: ';' :: r) = some (l ++ [']']) := by
  induction l with
  | nil => rfl
  | cons c cs ih =>
    have hc : ¬c = ']' := fun hc => h (hc ▸ List.mem_cons_self c cs)
    have ihh := ih fun hm => h (List.mem_cons_of_mem c hm)
    simp [captureArr, hc, ihh]

/-- A JSON string literal of characters needing no escape parses to exactly
those characters. -/
theorem jsonStrChars_plain (l : List Char) (r : List Char)
    (h : ∀ c ∈ l, goodUrlChar c = true) :
    jsonStrChars (l ++ '"' :: r) = some (l, r) := by
  induction l with
  | nil => rfl
  | cons c cs ih =>
    have hc := h c (List.mem_cons_self c cs)
    simp only [goodUrlChar, Bool.and_eq_true, Bool.not_eq_true', beq_eq_false_iff_ne,
      decide_eq_true_eq] at hc
    obtain ⟨⟨⟨h32, hq⟩, hb⟩, _⟩ := hc
    have ihh := ih fun d hd => h d (List.mem_cons_of_mem c hd)
    rw [List.cons_append, jsonStrChars.eq_2, if_neg hq, if_neg hb,
      if_neg (by omega : ¬c.toNat < 32), ihh]

/-- No URL of the photo array contains a closing bracket. -/
theorem not_bracket_of_good {u : String} (hu : goodUrl u = true) : ']' ∉ u.data := by
  intro hm
  have ha := List.all_eq_true.mp hu ']' hm
  exact absurd ha (by decide)

/-- The quoted URL list of a well-formed photo array contains no closing
bracket. -/
theorem arrLit_no_bracket :
    ∀ urls : List String, (∀ u ∈ urls, goodUrl u = true) → ']' ∉ arrLitChars urls
  | [], _ => by simp [arrLitChars]
  | [u], hg => by
    have hu := not_bracket_of_good (hg u (by simp))
    simp [arrLitChars, hu]
  | u :: v :: us, hg => by
    have hu := not_bracket_of_good (hg u (by simp))
    have ih := arrLit_no_bracket (v :: us) fun w hw => hg w (List.mem_cons_of_mem u hw)
    simp [arrLitChars, hu, ih]

/-- The quoted URL list is at least as long as the URL list. -/
theorem arrLit_length : ∀ urls : List String, urls.length ≤ (arrLitChars urls).length
  | [] => by simp [arrLitChars]
  | [u] => by simp [arrLitChars]
  | u :: v :: us => by
    have ih := arrLit_length (v :: us)
    simp only [arrLitChars, List.length_cons, List.length_append] at ih ⊢
    omega

/-- The quoted URL list of a nonempty URL list starts with a quote. -/
theorem arrLit_head (v : String) (vs : List String) :
    ∃ t, arrLitChars (v :: vs) = '"' :: t := by
  cases vs <;> exact ⟨_, rfl⟩

/-- The element parser consumes a well-formed quoted URL list up to the
closing bracket and returns exactly the URLs, given enough fuel. -/
theorem parseElems_arrLit :
    ∀ (urls : List String) (fuel : Nat), urls ≠ [] → urls.length ≤ fuel →
      (∀ u ∈ urls, goodUrl u = true) →
      parseElems fuel (arrLitChars urls ++ [']']) = some (urls, []) := by
  intro urls
  induction urls with
  | nil => exact fun fuel h => absurd rfl h
  | cons u us ih =>
    intro fuel _ hlen hg
    cases fuel with
    | zero => simp at hlen
    | succ f =>
      have hu : ∀ c ∈ u.data, goodUrlChar c = true := fun c hc =>
        List.all_eq_true.mp (hg u (List.mem_cons_self u us)) c hc
      cases us with
      | nil =>
        simp only [arrLitChars, List.cons_append, List.append_assoc, List.singleton_append,
          List.nil_append]
        simp only [parseElems]
        rw [jsonStrChars_plain u.data [']'] hu]
        exact rfl
      | cons v vs =>
        simp only [arrLitChars, List.cons_append, List.append_assoc, List.singleton_append]
        simp only [parseElems]
        rw [jsonStrChars_plain u.data (',' :: (arrLitChars (v :: vs) ++ [']'])) hu]
        have hd2 : List.dropWhile isJsonWs (',' :: (arrLitChars (v :: vs) ++ [']']))
            = ',' :: (arrLitChars (v :: vs) ++ [']']) := rfl
        obtain ⟨t, ht⟩ := arrLit_head v vs
        have hdw : List.dropWhile isJsonWs (arrLitChars (v :: vs) ++ [']'])
            = arrLitChars (v :: vs) ++ [']'] := by
          rw [ht]
          exact rfl
        have ihh := ih f (by simp) (by simp at hlen ⊢; omega)
          fun w hw => hg w (List.mem_cons_of_mem u hw)
        simp [hd2, hdw, ihh, string_mk_data]

/-- Decoding the well-formed array literal yields exactly the URLs. -/
theorem jsonLoads_arrLit (urls : List String) (hg : ∀ u ∈ urls, goodUrl u = true) :
    jsonLoadsStrArr (String.mk ('[' :: (arrLitChars urls ++ [']']))) = .ok urls := by
  cases urls with
  | nil => rfl
  | cons u us =>
    obtain ⟨t, ht⟩ := arrLit_head u us
    have hal := arrLit_length (u :: us)
    rw [ht] at hal
    have hlen : (u :: us).length ≤ ('"' :: (t ++ [']'])).length + 1 := by
      simp only [List.length_cons, List.length_append] at hal ⊢
      omega
    have hp := parseElems_arrLit (u :: us) (('"' :: (t ++ [']'])).length + 1) (by simp) hlen hg
    rw [ht, List.cons_append] at hp
    rw [ht, List.cons_append]
    have step0 : jsonLoadsStrArr (String.mk ('[' :: '"' :: (t ++ [']'])))
        = (match parseElems (('"' :: (t ++ [']'])).length + 1) ('"' :: (t ++ [']'])) with
           | some (es, tail) =>
             if (tail.dropWhile isJsonWs).isEmpty then Except.ok es
             else Except.error PyErr.jsonDecodeError
           | none => Except.error PyErr.jsonDecodeError) := rfl
    rw [step0, hp]
    exact rfl

/-- The photo-array pattern matches at the start of the well-formed script
text and captures the array literal. -/
theorem matchMosaicAt_assign (urls : List String) (hb : ']' ∉ arrLitChars urls) :
    matchMosaicAt (mosaicAssign urls).data
      = some ('[' :: (arrLitChars urls ++ [']'])) := by
  show matchMosaicAt
      (mosaicLit ++ (' ' :: '=' :: ' ' :: '[' :: (arrLitChars urls ++ [']', ';']))) = _
  have step1 : matchMosaicAt
        (mosaicLit ++ (' ' :: '=' :: ' ' :: '[' :: (arrLitChars urls ++ [']', ';'])))
      = (captureArr (arrLitChars urls ++ [']', ';'])).map (fun r => '[' :: r) := rfl
  rw [step1, captureArr_append _ _ hb]
  rfl

/-- A successful pattern attempt at the head position makes the whole scan
succeed with the same capture. -/
theorem mosaicScan_of_matchAt (l r : List Char) (h : matchMosaicAt l = some r)
    (hne : ¬l = []) : mosaicScan l = some r := by
  cases l with
  | nil => exact absurd rfl hne
  | cons c rest => simp [mosaicScan, h]

/-- C7: on a document whose only script assigns a well-formed JSON array of
URL strings to the known variable, images extraction returns exactly those
strings in order; on a document none of whose scripts match the assignment
pattern, it returns the empty list. -/
theorem c7_images_extraction (doc : Doc) (urls : List String) :
    ((∀ u ∈ urls, goodUrl u = true) → doc.scripts = [mosaicAssign urls] →
      extract_image_urls doc = .ok urls) ∧
    ((∀ s ∈ doc.scripts, mosaicScan s.data = none) →
      extract_image_urls doc = .ok []) := by
  constructor
  · intro hg hs
    have hb : ']' ∉ arrLitChars urls := arrLit_no_bracket urls hg
    have hne : ¬(mosaicAssign urls).data = [] := by
      intro h
      have h2 : mosaicLit = [] := (List.append_eq_nil.mp h).1
      exact absurd h2 (by decide)
    have hscan : mosaicScan (mosaicAssign urls).data
        = some ('[' :: (arrLitChars urls ++ [']'])) :=
      mosaicScan_of_matchAt _ _ (matchMosaicAt_assign urls hb) hne
    unfold extract_image_urls
    rw [hs, List.find?_cons_of_pos _ (by simp [hscan])]
    simp only [hscan]
    exact jsonLoads_arrLit urls hg
  · intro hn
    unfold extract_image_urls
    have hfind : doc.scripts.find? (fun s => (mosaicScan s.data).isSome) = none := by
      rw [List.find?_eq_none]
      intro s hsm
      simp [hn s hsm]
    rw [hfind]

/-- C7 witness at a concrete three-URL document and a concrete non-matching
document. -/
theorem c7_images_extraction_witness :
    extract_image_urls doc3
      = .ok ["https://img/1.jpg", "https://img/2.jpg", "https://img/3.jpg"] ∧
    extract_image_urls docNoScript = .ok [] :=
  ⟨(c7_images_extraction doc3
      ["https://img/1.jpg", "https://img/2.jpg", "https://img/3.jpg"]).1 (by decide) rfl,
   (c7_images_extraction docNoScript []).2 (by
      intro s hs
      simp only [docNoScript, List.mem_singleton] at hs
      subst hs
      decide)⟩

end Scraper
